import Mathlib

/-!
Shallow embedding of the caching and read-model consistency layer of the
truematch python service (directory `python-service/app`), together with
proofs of the spec claims about it.

Conventions of the embedding:
* Python dictionaries keep insertion order, so a dict is an association
  list `List (String × β)`; `dictSet` mirrors `d[k] = v` (replace in place,
  append when new) and `eraseKey` mirrors `d.pop(k, None)`.
* `time.time()` is an abstract `Nat` clock passed explicitly.
* Values stored in a `TTLCache` are a type parameter, as the cache holds
  arbitrary payloads.
* String helpers (`pyStrip`, `pyLower`, `strStartsWith`, `strEndsWith`)
  mirror the Python `str` methods on the `List Char` model of `String`, so
  that concrete instances reduce inside the kernel.
-/

set_option autoImplicit false

namespace TrueMatch

universe u

/-- `d[k] = v` on a Python dict: replace the binding in place when the key
exists, append it otherwise. -/
def dictSet {β : Type u} : List (String × β) → String → β → List (String × β)
  | [], k, v => [(k, v)]
  | (k', v') :: t, k, v =>
      if k' = k then (k, v) :: t else (k', v') :: dictSet t k v

/-- `d.pop(k, None)` on a Python dict: drop the binding for `k`. -/
def eraseKey {β : Type u} (d : List (String × β)) (k : String) : List (String × β) :=
  d.filter (fun kv => kv.1 != k)

/-- `d.setdefault(k, v)`: insert `k ↦ v` (at the end) only when `k` is absent. -/
def dictSetDefault {β : Type u} (d : List (String × β)) (k : String) (v : β) :
    List (String × β) :=
  if (List.lookup k d).isSome then d else d ++ [(k, v)]

/-- Python `str.strip()` (whitespace only), on the character list model. -/
def isSpaceChar (c : Char) : Bool :=
  c == ' ' || c == '\t' || c == '\n' || c == '\r' || c == '\x0b' || c == '\x0c'

def pyStrip (s : String) : String :=
  ⟨((s.data.dropWhile isSpaceChar).reverse.dropWhile isSpaceChar).reverse⟩

/-- Python `str.lower()` restricted to ASCII, on the character list model. -/
def asciiLower (c : Char) : Char :=
  if 'A' ≤ c ∧ c ≤ 'Z' then Char.ofNat (c.toNat + 32) else c

def pyLower (s : String) : String :=
  ⟨s.data.map asciiLower⟩

/-- Python `s.startswith(p)`. -/
def strStartsWith (s p : String) : Bool :=
  p.data.isPrefixOf s.data

/-- Python `s.endswith(p)`. -/
def strEndsWith (s p : String) : Bool :=
  p.data.isSuffixOf s.data

/-! ## TTLCache (`app/cache.py`)

A cache is its `_store` dict: key ↦ (value, expires_at).  `expires_at` is
the `Nat` clock value; `set` computes `now + max 0 ttl` exactly as
`time.time() + max(0, int(ttl_seconds))`. -/

abbrev Store (α : Type u) : Type u := List (String × α × Nat)

namespace TTLCache

/-- `TTLCache.get` (`cache.py` lines 12–23): absent when missing; when the
entry is present and `exp` is truthy (nonzero) and `exp < now` the entry is
expired, popped, and absent; otherwise the value is returned. Returns the
result together with the store after the call. -/
def get {α : Type u} (s : Store α) (now : Nat) (key : String) : Option α × Store α :=
  match List.lookup key s with
  | none => (none, s)
  | some (v, exp) =>
      if exp ≠ 0 ∧ exp < now then (none, eraseKey s key) else (some v, s)

/-- `TTLCache.set` (`cache.py` lines 25–28): `exp = now + max 0 ttl`,
overwrite any existing entry. -/
def set {α : Type u} (s : Store α) (now : Nat) (key : String) (v : α) (ttl : Int) : Store α :=
  dictSet s key (v, now + ttl.toNat)

/-- `TTLCache.delete_prefix` (`cache.py` lines 30–35): collect the keys that
start with the prefix, pop them all, return how many there were (with the
store after the call). -/
def deletePrefix {α : Type u} (s : Store α) (p : String) : Nat × Store α :=
  let keys := (s.map (·.1)).filter (fun k => strStartsWith k p)
  (keys.length, s.filter (fun kv => !strStartsWith kv.1 p))

end TTLCache

/-! ## Cache bus subscriber (`app/cache_bus.py`) -/

/-- The dynamic `{ type, pattern }` event dict: a missing key is `none`. -/
structure CacheEvent where
  etype : Option String
  pattern : Option String
deriving DecidableEq

/-- `handle_cache_event` (`cache_bus.py` lines 5–19): ignore topics not
ending in "cache"; lowercase `str(event.get("type") or "")`; on
"invalidate", read `str(event.get("pattern") or "")` and delete the prefix
only when it is non-empty.  The whole body is `try/except: pass`, so the
embedding is a total function on the cache. -/
def handleCacheEvent {α : Type u} (topic : String) (ev : CacheEvent) (c : Store α) : Store α :=
  if ¬ strEndsWith topic "cache" then c
  else if pyLower (ev.etype.getD "") = "invalidate" then
    let pat := ev.pattern.getD ""
    if pat ≠ "" then (TTLCache.deletePrefix c pat).2 else c
  else c

/-! ## Read-model window (`app/readmodels.py`, `_update_latest_messages`)

The update document at lines 33–41 is
`{"$setOnInsert": {"groupId": gid, "items": []},
  "$push": {"items": {"$each": [item], "$slice": -window}},
  "$set": {"updatedAt": now}}`.
Before applying any operator, MongoDB validates that no two update
operators of one update document target the same path; here both
`$setOnInsert` and `$push` target `items`, so the server rejects the
update with `ConflictingUpdateOperators` ("Updating the path 'items'
would create a conflict at 'items'") — on every call, upsert or not.
The embedding therefore models the update call as: validate the
operator/path shape of the update document, raise on a conflict, and only
on a valid document apply the append-and-slice semantics. -/

/-- `$slice: -n`, in isolation: the last `n` elements of a list. -/
def sliceLast {α : Type u} (l : List α) (n : Nat) : List α :=
  (l.reverse.take n).reverse

/-- What one `$push`/`$each`/`$slice: -window` on `items` would do to the
window document's `items`, were the containing update document valid. -/
def pushSlice {α : Type u} (items : List α) (item : α) (window : Nat) : List α :=
  sliceLast (items ++ [item]) window

/-- Whether a list of paths targets some path twice. -/
def hasDup : List String → Bool
  | [] => false
  | x :: t => t.contains x || hasDup t

/-- The operator → target-paths shape of the update document built by
`_update_latest_messages` (readmodels.py lines 35–39). -/
def latestWindowUpdateOps : List (String × List String) :=
  [("$setOnInsert", ["groupId", "items"]),
   ("$push", ["items"]),
   ("$set", ["updatedAt"])]

/-- The `update_one` of `_update_latest_messages`: MongoDB first rejects
an update document whose operators target one path twice
(`ConflictingUpdateOperators`); only a valid document would upsert
(`$setOnInsert: {items: []}`, so a missing document starts from `[]`) and
push-and-slice the item. -/
def updateLatestWindow {α : Type u} (winItems : Option (List α)) (item : α)
    (window : Nat) : Except String (Option (List α)) :=
  if hasDup ((latestWindowUpdateOps.map (·.2)).flatten) then
    .error "ConflictingUpdateOperators"
  else .ok (some (pushSlice (winItems.getD []) item window))

/-- `_update_latest_messages` (lines 22–51): return untouched when the
message is not found, otherwise run the window `update_one` — whose
exception propagates to the caller (the update is outside any `try`), so
on an error the window document is unchanged and the cache-refresh tail
never runs. -/
def updateLatestMessages {α : Type u} (msg : Option α) (winItems : Option (List α))
    (window : Nat) : Except String (Option (List α)) :=
  match msg with
  | none => .ok winItems
  | some item => updateLatestWindow winItems item window

/-! ## Message documents (`app/services/message_service.py`)

Documents written by `create_group_message` have a fixed key set, so the
service-layer world models them as structures.  An `Option` field stands
for a key whose value may be `None` (or absent, for `replyTo` snapshots).
The `at` key of a reaction is spelled `atTime` (`at` is reserved). -/

structure ReplyRef where
  messageId : Option String
  username : Option String
  text : Option String
  timestamp : Option String
  kind : Option String
  deleted : Bool
  deletedAt : Option String
  media : Option String
  audio : Option String
deriving DecidableEq

structure Reaction where
  emoji : String
  atTime : Nat
  userId : String
  username : Option String
deriving DecidableEq

structure Msg where
  roomId : String
  groupId : String
  messageId : String
  timestamp : String
  createdAt : Nat
  userId : Option String
  username : String
  avatar : Option String
  bubbleColor : Option String
  text : String
  kind : Option String
  media : Option String
  audio : Option String
  replyTo : Option ReplyRef
  edited : Bool
  lastEditedAt : Option String
  edits : List (String × String)
  deleted : Bool
  deletedAt : Option String
  reactions : List (String × Reaction)
deriving DecidableEq

/-- The `$or: [{roomId: gid}, {groupId: gid}]` clause used by the group
message queries. -/
def scopeMatch (gid : String) (m : Msg) : Bool :=
  m.roomId == gid || m.groupId == gid

/-- `find_one({"$and": [{"messageId": mid}, scope]})` over the collection. -/
def findMessage (store : List Msg) (gid mid : String) : Option Msg :=
  store.find? (fun m => m.messageId == mid && scopeMatch gid m)

/-- Mongo `update_one`: rewrite the first document matching the filter. -/
def updateFirst {α : Type u} (p : α → Bool) (f : α → α) : List α → List α
  | [] => []
  | m :: t => if p m then f m :: t else m :: updateFirst p f t

/-! ### `delete_group_message` (lines 538–692) -/

/-- The `$set {deleted, deletedAt, text: ""}` / `$unset {media, audio}`
update applied to the deleted message itself (and, by `array_filters` or
the manual fallback, to the matching window items). -/
def markDeleted (now : String) (m : Msg) : Msg :=
  { m with deleted := true, deletedAt := some now, text := "",
           media := none, audio := none }

/-- The `update_many({"replyTo.messageId": mid})` update on the primary
store: set `replyTo.deleted`, `replyTo.deletedAt`, `replyTo.text: ""`
(media/audio of the snapshot are kept there). -/
def markReplyDeletedStore (now : String) (r : ReplyRef) : ReplyRef :=
  { r with deleted := true, deletedAt := some now, text := some "" }

def propagateReplyDeleteStore (mid now : String) (store : List Msg) : List Msg :=
  store.map (fun m =>
    match m.replyTo with
    | some r =>
        if r.messageId == some mid then
          { m with replyTo := some (markReplyDeletedStore now r) }
        else m
    | none => m)

/-- The window-scan update on a matched item's snapshot: deleted, cleared
text, media/audio popped. -/
def markReplyDeletedWindow (now : String) (r : ReplyRef) : ReplyRef :=
  { r with deleted := true, deletedAt := some now, text := some "",
           media := none, audio := none }

/-- The window scan's match condition: `reply.get("messageId") == mid`, or
else (when the deleted doc's `timestamp` and `username` are truthy) a
match on both. -/
def replyMatchesDeleted (mid msgTs msgUser : String) (r : ReplyRef) : Bool :=
  r.messageId == some mid ||
    (msgTs != "" && msgUser != "" &&
      r.timestamp == some msgTs && r.username == some msgUser)

def markDeletedWindowItems (mid now : String) (items : List Msg) : List Msg :=
  items.map (fun it => if it.messageId == mid then markDeleted now it else it)

def propagateReplyDeleteWindow (mid now msgTs msgUser : String) (items : List Msg) :
    List Msg :=
  items.map (fun it =>
    match it.replyTo with
    | some r =>
        if replyMatchesDeleted mid msgTs msgUser r then
          { it with replyTo := some (markReplyDeletedWindow now r) }
        else it
    | none => it)

/-- `delete_group_message` restricted to its primary-store and
window-document effects: fetch the doc (404 when absent), mark it deleted,
propagate to `replyTo` snapshots in the store (`update_many` by
`replyTo.messageId`, no scope filter), mark the matching window items, and
scan the window for snapshots matching by id or by timestamp+username.
The trailing cache invalidations / bus publishes do not touch these two
stores and are elided here. -/
def deleteGroupMessage (store window : List Msg) (gid mid now : String) :
    Except String (List Msg × List Msg) :=
  match findMessage store gid mid with
  | none => .error "Message not found"
  | some doc =>
      let store₁ := updateFirst
        (fun m => m.messageId == mid && scopeMatch gid m) (markDeleted now) store
      let store₂ := propagateReplyDeleteStore mid now store₁
      let window₁ := markDeletedWindowItems mid now window
      let window₂ :=
        propagateReplyDeleteWindow mid now doc.timestamp doc.username window₁
      .ok (store₂, window₂)

/-! ### `react_to_group_message` (lines 695–756) -/

/-- Lines 717–728: the new `reactions` dict.  Removal when the emoji is
falsy (`None`/`""`), whitespace-only, or equal to the user's current
emoji; otherwise the user's entry is written. -/
def reactUpdate (reactions : List (String × Reaction)) (uid : String)
    (uname : Option String) (emoji : Option String) (nowMs : Nat) :
    List (String × Reaction) :=
  let current : Option String := (List.lookup uid reactions).map (·.emoji)
  let removal : Bool :=
    (match emoji with
     | none => true
     | some s => s == "" || pyStrip s == "") || current == emoji
  if removal then eraseKey reactions uid
  else dictSet reactions uid
    ⟨emoji.getD "", nowMs, uid, uname⟩

/-- `react_to_group_message` restricted to its primary-store effect: `400`
when `user.userId` is falsy, `404` when the message is not found, else
write the updated `reactions` dict back with the same filter as the fetch.
The trailing cache invalidations are elided; the returned reactions dict
is the one the response carries. -/
def reactToGroupMessage (store : List Msg) (gid mid : String)
    (emoji : Option String) (uid uname : Option String) (nowMs : Nat) :
    Except String (List Msg × List (String × Reaction)) :=
  if uid.getD "" = "" then .error "user.userId required"
  else
    let u := uid.getD ""
    match findMessage store gid mid with
    | none => .error "Message not found"
    | some doc =>
        let reacts := reactUpdate doc.reactions u uname emoji nowMs
        let store' := updateFirst
          (fun m => m.messageId == mid && scopeMatch gid m)
          (fun m => { m with reactions := reacts }) store
        .ok (store', reacts)

/-! ### `create_group_message` (lines 310–382)

The service world tracks every store the function can affect: the message
collection, the window document, the per-process `TTLCache`, the shared
redis cache, and the list of events published on the bus (the read model
is only updated downstream of a published `message_created` event).
`insertErr` is the outcome of `insert_one`: `some e` when the primary
store write raises `e`. -/

def optTruthy (o : Option String) : Bool :=
  match o with
  | none => false
  | some s => s != ""

/-- `resolve_reply_reference` (lines 88–150) on the typed documents of the
service world (`out` starts as the snapshot itself: the key projection is
the identity on the fixed schema, and "key absent" is `none`).  Lookups
are `find_one` by `messageId` first, then by `timestamp`, both behind the
thread scope filter. -/
def resolveReplyTyped (store : List Msg) (sid : String) (ref : Option ReplyRef) :
    Option ReplyRef :=
  match ref with
  | none => none
  | some r =>
      let needsText : Bool :=
        match r.text with
        | some s => pyStrip s == ""
        | none => true
      let original₁ : Option Msg :=
        if needsText && optTruthy r.messageId then
          store.find? (fun m => m.messageId == r.messageId.getD "" && scopeMatch sid m)
        else none
      let original : Option Msg :=
        match original₁ with
        | some o => some o
        | none =>
            if needsText && optTruthy r.timestamp then
              store.find? (fun m => m.timestamp == r.timestamp.getD "" && scopeMatch sid m)
            else none
      let out :=
        match original with
        | none => r
        | some o =>
            let o₁ := { r with messageId := r.messageId <|> some o.messageId,
                               username := r.username <|> some o.username,
                               text := some o.text,
                               timestamp := r.timestamp <|> some o.timestamp }
            let o₂ := if optTruthy o.kind then { o₁ with kind := o₁.kind <|> o.kind } else o₁
            let o₃ :=
              if o.deleted then
                { o₂ with deleted := true,
                          deletedAt := if optTruthy o.deletedAt then
                              o₂.deletedAt <|> o.deletedAt
                            else o₂.deletedAt }
              else o₂
            let o₄ := if optTruthy o.media && o₃.media == none then
                { o₃ with media := o.media } else o₃
            if optTruthy o.audio && o₄.audio == none then
              { o₄ with audio := o.audio } else o₄
      some { out with text := some (out.text.getD "") }

structure CreatePayload where
  userId : Option String
  username : String
  avatar : Option String
  bubbleColor : Option String
  text : Option String
  kind : Option String
  media : Option String
  audio : Option String
  replyTo : Option ReplyRef
  replyToMessageId : Option String
  replyToTimestamp : Option String
deriving DecidableEq

/-- Lines 318–325: the incoming snapshot wins; when there is none, a loose
reference is built from `replyToMessageId`/`replyToTimestamp` (each key
present only when truthy). -/
def mergedReplyRef (p : CreatePayload) : Option ReplyRef :=
  match p.replyTo with
  | some r => some r
  | none =>
      if optTruthy p.replyToMessageId || optTruthy p.replyToTimestamp then
        some { messageId := if optTruthy p.replyToMessageId then p.replyToMessageId else none,
               username := none, text := none,
               timestamp := if optTruthy p.replyToTimestamp then p.replyToTimestamp else none,
               kind := none, deleted := false, deletedAt := none,
               media := none, audio := none }
      else none

inductive PubEvent where
  | messageCreated (gid mid : String)
  | invalidate (pat : String)
deriving DecidableEq

structure SvcState (κ : Type u) where
  store : List Msg
  window : List Msg
  localCache : Store κ
  redisCache : Store κ
  published : List PubEvent
deriving DecidableEq

/-- `invalidate_latest_cache` (lines 38–51): local prefix delete, redis
prefix delete, invalidation publish. -/
def invalidateLatestCache {κ : Type u} (st : SvcState κ) (gid : String) : SvcState κ :=
  let p := "messages:latest:" ++ gid ++ ":"
  let st₁ := { st with localCache := (TTLCache.deletePrefix st.localCache p).2 }
  let st₂ := { st₁ with redisCache := (TTLCache.deletePrefix st₁.redisCache p).2 }
  { st₂ with published := st₂.published ++ [PubEvent.invalidate p] }

/-- `create_group_message`: resolve the reply reference (reads only),
build the document, insert it into the primary store, and only then
publish `message_created`, evict `groups:list:` locally, publish its
invalidation, and run `invalidate_latest_cache`.  When `insert_one`
raises, the error propagates immediately. -/
def createGroupMessage {κ : Type u} {ε : Type} (st : SvcState κ) (gid : String)
    (p : CreatePayload) (mid ts : String) (nowMs : Nat) (insertErr : Option ε) :
    Except ε Msg × SvcState κ :=
  let ref := resolveReplyTyped st.store gid (mergedReplyRef p)
  let doc : Msg :=
    { roomId := gid
      groupId := gid
      messageId := mid
      timestamp := ts
      createdAt := nowMs
      userId := p.userId
      username := p.username
      avatar := p.avatar
      bubbleColor := p.bubbleColor
      text := p.text.getD ""
      kind := p.kind
      media := p.media
      audio := p.audio
      replyTo := ref
      edited := false
      lastEditedAt := none
      edits := []
      deleted := false
      deletedAt := none
      reactions := [] }
  match insertErr with
  | some e => (.error e, st)
  | none =>
      let st₁ := { st with store := st.store ++ [doc] }
      let st₂ := { st₁ with published := st₁.published ++ [PubEvent.messageCreated gid mid] }
      let st₃ := { st₂ with
        localCache := (TTLCache.deletePrefix st₂.localCache "groups:list:").2 }
      let st₄ := { st₃ with published := st₃.published ++ [PubEvent.invalidate "groups:list:"] }
      (.ok doc, invalidateLatestCache st₄ gid)

/-! ## The dict world: `resolve_reply_reference` on dynamic dicts

`payload.reply_to` is an arbitrary JSON object from the client, so the
reference resolver is also embedded over dynamic dicts, where keys outside
the recognised snapshot set exist.  `PyVal` is the scalar value model
(values are opaque to the resolver's logic). -/

inductive PyVal where
  | vStr (s : String)
  | vInt (n : Int)
  | vBool (b : Bool)
  | vNull
deriving DecidableEq

abbrev PyDict := List (String × PyVal)

def pyTruthy : Option PyVal → Bool
  | none => false
  | some (.vStr s) => s != ""
  | some (.vInt n) => n != 0
  | some (.vBool b) => b
  | some .vNull => false

/-- The key set the resolver projects a snapshot onto (lines 101–116). -/
def replyKeys : List String :=
  ["messageId", "username", "text", "timestamp", "kind", "media", "audio",
   "deleted", "deletedAt"]

/-- A Mongo `{field: value}` equality clause on a dict document. -/
def docFieldEq (doc : PyDict) (k : String) (v : PyVal) : Bool :=
  List.lookup k doc == some v

/-- `_thread_scope_filter` for the group collection (lines 70–85). -/
def scopeFilterMatch (sid : String) (doc : PyDict) : Bool :=
  docFieldEq doc "roomId" (.vStr sid) || docFieldEq doc "groupId" (.vStr sid)

/-- `needs_text` (line 118): true unless `out["text"]` is a string with
non-whitespace content. -/
def needsTextOf (out : PyDict) : Bool :=
  match List.lookup "text" out with
  | some (.vStr s) => pyStrip s == ""
  | _ => true

/-- `resolve_reply_reference` (lines 88–150) on dynamic dicts.  `none`
stands for the `return None` on a falsy reference (the non-dict case is
outside the embedding's input type).  `db` is the group message
collection. -/
def resolveReplyReference (db : List PyDict) (sid : String) (ref : PyDict) :
    Option PyDict :=
  if ref = [] then none
  else
    let out := ref.filter (fun kv => replyKeys.contains kv.1)
    let needsText := needsTextOf out
    let original₁ : Option PyDict :=
      if needsText && pyTruthy (List.lookup "messageId" ref) then
        db.find? (fun d =>
          docFieldEq d "messageId" ((List.lookup "messageId" ref).getD .vNull) &&
          scopeFilterMatch sid d)
      else none
    let original : Option PyDict :=
      match original₁ with
      | some o => some o
      | none =>
          if needsText && pyTruthy (List.lookup "timestamp" ref) then
            db.find? (fun d =>
              docFieldEq d "timestamp" ((List.lookup "timestamp" ref).getD .vNull) &&
              scopeFilterMatch sid d)
          else none
    let out :=
      match original with
      | some o =>
          if o = [] then out
          else
            let o₁ := dictSetDefault out "messageId" ((List.lookup "messageId" o).getD .vNull)
            let o₂ := dictSetDefault o₁ "username" ((List.lookup "username" o).getD .vNull)
            let o₃ := dictSet o₂ "text" ((List.lookup "text" o).getD (.vStr ""))
            let o₄ := dictSetDefault o₃ "timestamp" ((List.lookup "timestamp" o).getD .vNull)
            let o₅ := if pyTruthy (List.lookup "kind" o) then
                dictSetDefault o₄ "kind" ((List.lookup "kind" o).getD .vNull)
              else o₄
            let o₆ := if pyTruthy (List.lookup "deleted" o) then
                let t := dictSet o₅ "deleted" (.vBool true)
                if pyTruthy (List.lookup "deletedAt" o) then
                  dictSetDefault t "deletedAt" ((List.lookup "deletedAt" o).getD .vNull)
                else t
              else o₅
            let o₇ := if pyTruthy (List.lookup "media" o) &&
                (List.lookup "media" o₆).isNone then
                dictSet o₆ "media" ((List.lookup "media" o).getD .vNull)
              else o₆
            if pyTruthy (List.lookup "audio" o) &&
                (List.lookup "audio" o₇).isNone then
              dictSet o₇ "audio" ((List.lookup "audio" o).getD .vNull)
            else o₇
      | none => out
    let final :=
      match List.lookup "text" out with
      | none => dictSet out "text" (.vStr "")
      | some .vNull => dictSet out "text" (.vStr "")
      | some _ => out
    some final

/-! ## Bus consumer loops (`app/kafka.py`, `app/redis_bus.py`)

A handler invocation is a value `Except ε Unit`: `.error e` stands for the
handler raising `e`.  The loops record every invocation they make; an
undecodable payload is skipped (`continue`), a handler fault is swallowed
(`except: pass`) and the iteration proceeds. -/

structure BusMsg (μ : Type u) where
  topic : String
  value : μ

/-- The `async for msg in consumer` loop of `kafka.start_consumer`
(lines 90–100): decode, invoke, keep going. -/
def kafkaConsumeLoop {μ π : Type u} {ε : Type} (decode : μ → Option π)
    (handler : String → π → Except ε Unit) :
    List (BusMsg μ) → List (String × π × Except ε Unit)
  | [] => []
  | m :: rest =>
      match decode m.value with
      | none => kafkaConsumeLoop decode handler rest
      | some p => (m.topic, p, handler m.topic p) :: kafkaConsumeLoop decode handler rest

structure RedisMsg (μ : Type u) where
  mtype : String
  channel : μ
  data : μ

/-- The `async for message in pubsub.listen()` loop of
`redis_bus.start_consumer` (lines 70–86): skip non-"message" frames,
decode channel and payload together (one `try` block), invoke, keep
going. -/
def redisListenLoop {μ π : Type u} {ε : Type} (decode : μ → μ → Option (String × π))
    (handler : String → π → Except ε Unit) :
    List (RedisMsg μ) → List (String × π × Except ε Unit)
  | [] => []
  | m :: rest =>
      if m.mtype ≠ "message" then redisListenLoop decode handler rest
      else
        match decode m.channel m.data with
        | none => redisListenLoop decode handler rest
        | some (ch, p) => (ch, p, handler ch p) :: redisListenLoop decode handler rest

/-! ## Conditional responses (`app/utils/http.py`, `app/routers/messages.py`)

`json.dumps(payload, separators=(",", ":"), sort_keys=True)` is embedded
as a canonical serializer over a JSON value type: each object's fields are
serialized and then ordered by key.  The hash (`hashlib.md5(...)
.hexdigest()`) is an opaque function of the canonical string. -/

inductive JVal where
  | jNull
  | jBool (b : Bool)
  | jNum (n : Int)
  | jStr (s : String)
  | jArr (xs : List JVal)
  | jObj (fields : List (String × JVal))

/-- JSON string quoting (escaping elided: the claims compare whole
serializations, never parse them). -/
def jQuote (s : String) : String := "\"" ++ s ++ "\""

def joinComma : List String → String
  | [] => ""
  | [x] => x
  | x :: rest => x ++ "," ++ joinComma rest

/-- `sort_keys=True`: order an object's serialized fields by key. -/
def sortByKey (l : List (String × String)) : List (String × String) :=
  l.mergeSort (fun a b => a.1 ≤ b.1)

mutual
/-- The canonical compact serialization
(`separators=(",", ":"), sort_keys=True`). -/
def canon : JVal → String
  | .jNull => "null"
  | .jBool b => if b then "true" else "false"
  | .jNum n => toString n
  | .jStr s => jQuote s
  | .jArr xs => "[" ++ joinComma (canonArr xs) ++ "]"
  | .jObj fs =>
      "\x7b" ++
        joinComma ((sortByKey (canonPairs fs)).map
          (fun kv => jQuote kv.1 ++ ":" ++ kv.2)) ++
      "\x7d"

def canonArr : List JVal → List String
  | [] => []
  | v :: rest => canon v :: canonArr rest

def canonPairs : List (String × JVal) → List (String × String)
  | [] => []
  | (k, v) :: rest => (k, canon v) :: canonPairs rest
end

/-- `weak_etag` (`utils/http.py` lines 6–17) on a string payload: the weak
validator around the hex digest of the raw string. -/
def weakEtag (hashHex : String → String) (raw : String) : String :=
  "W/\"" ++ hashHex raw ++ "\""

/-- The conditional part of `get_latest_messages`
(`routers/messages.py` lines 239–250): serialize the cached payload,
attach the ETag, and when the request's `If-None-Match` is truthy and
equal to it, respond 304 with an empty body; otherwise 200 with the
payload.  The result is (status, body, ETag header). -/
def respondLatestCached (hashHex : String → String) (cached : JVal)
    (inm : Option String) : Nat × JVal × String :=
  let raw := canon cached
  let tag := weakEtag hashHex raw
  match inm with
  | some h => if h ≠ "" ∧ h = tag then (304, .jArr [], tag) else (200, cached, tag)
  | none => (200, cached, tag)

/-- Concrete-message builder used by the witnesses. -/
def mkMsg (gid mid ts user txt : String) (rt : Option ReplyRef)
    (reacts : List (String × Reaction)) : Msg :=
  { roomId := gid
    groupId := gid
    messageId := mid
    timestamp := ts
    createdAt := 0
    userId := none
    username := user
    avatar := none
    bubbleColor := none
    text := txt
    kind := none
    media := none
    audio := none
    replyTo := rt
    edited := false
    lastEditedAt := none
    edits := []
    deleted := false
    deletedAt := none
    reactions := reacts }

/-- Concrete reply-snapshot builder used by the witnesses. -/
def mkReply (mid user txt ts : Option String) : ReplyRef :=
  { messageId := mid
    username := user
    text := txt
    timestamp := ts
    kind := none
    deleted := false
    deletedAt := none
    media := none
    audio := none }

/-! ## Dictionary lemmas -/

theorem lookup_filter_key {β : Type u} (q : String → Bool) (d : List (String × β))
    (k : String) :
    List.lookup k (d.filter (fun kv => q kv.1)) =
      if q k then List.lookup k d else none := by
  induction d with
  | nil => simp [List.lookup]
  | cons a t ih =>
      obtain ⟨k', v⟩ := a
      by_cases hk : k = k'
      · subst hk
        by_cases hq : q k <;> simp [List.filter, List.lookup, hq, ih]
      · have hbeq : (k == k') = false := beq_false_of_ne hk
        by_cases hq : q k' <;> simp [List.filter, List.lookup, hq, hbeq, ih]

theorem lookup_eraseKey_self {β : Type u} (d : List (String × β)) (k : String) :
    List.lookup k (eraseKey d k) = none := by
  have h := lookup_filter_key (fun x => x != k) d k
  simpa [eraseKey] using h

theorem lookup_eraseKey_ne {β : Type u} (d : List (String × β)) (k k' : String)
    (h : k' ≠ k) :
    List.lookup k' (eraseKey d k) = List.lookup k' d := by
  have hq := lookup_filter_key (fun x => x != k) d k'
  simpa [eraseKey, bne_iff_ne, h] using hq

theorem lookup_dictSet_self {β : Type u} (d : List (String × β)) (k : String) (v : β) :
    List.lookup k (dictSet d k v) = some v := by
  induction d with
  | nil => simp [dictSet, List.lookup]
  | cons a t ih =>
      obtain ⟨k', v'⟩ := a
      by_cases hk : k' = k
      · subst hk
        simp [dictSet, List.lookup]
      · have hbeq : (k == k') = false := beq_false_of_ne (Ne.symm hk)
        simp [dictSet, hk, List.lookup, hbeq, ih]

theorem lookup_dictSet_ne {β : Type u} (d : List (String × β)) (k k' : String) (v : β)
    (h : k' ≠ k) :
    List.lookup k' (dictSet d k v) = List.lookup k' d := by
  induction d with
  | nil => simp [dictSet, List.lookup, beq_false_of_ne h]
  | cons a t ih =>
      obtain ⟨k'', v''⟩ := a
      by_cases hk : k'' = k
      · subst hk
        simp [dictSet, List.lookup, beq_false_of_ne h]
      · simp [dictSet, hk, List.lookup, ih]

/-! ## C1, C2: the TTLCache contract -/

/-- **C1** (amended).  `get` returns absent when the key is missing, and
when the entry's nonzero `expiresAt` is *strictly* less than `now` — the
expired entry being popped as a side effect.  At `now = expiresAt`, and at
any earlier instant, the stored value is still returned (the code tests
`exp < now`, so the entry is present *at* the expiry instant and absent
strictly after it); an entry whose `expiresAt` is `0` (settable only at
clock 0 with ttl 0) is never considered expired. -/
theorem ttlGet_expiry (α : Type u) (s : Store α) (now : Nat) (k : String) :
    (List.lookup k s = none → TTLCache.get s now k = (none, s)) ∧
    (∀ v exp, List.lookup k s = some (v, exp) → exp ≠ 0 → exp < now →
      (TTLCache.get s now k).1 = none ∧
      List.lookup k (TTLCache.get s now k).2 = none) ∧
    (∀ v exp, List.lookup k s = some (v, exp) → now ≤ exp →
      TTLCache.get s now k = (some v, s)) ∧
    (∀ v, List.lookup k s = some (v, 0) → TTLCache.get s now k = (some v, s)) := by
  refine ⟨?_, ?_, ?_, ?_⟩
  · intro h
    simp [TTLCache.get, h]
  · intro v exp h hne hlt
    simp [TTLCache.get, h, hne, hlt, lookup_eraseKey_self]
  · intro v exp h hle
    have : ¬ (exp ≠ 0 ∧ exp < now) := by
      rintro ⟨-, hlt⟩
      exact absurd hle (not_le.mpr hlt)
    simp [TTLCache.get, h, this]
  · intro v h
    simp [TTLCache.get, h]

/-- **C1**, counterexample to the claim as stated: an entry with
`expiresAt = 5` read at `now = 5 ≥ expiresAt` is still returned (the claim
says it must be absent), and an entry with `expiresAt = 0` is returned at
`now = 100`. -/
theorem ttlGet_expiry_cex :
    List.lookup "k" ([("k", ("v", 5)), ("z", ("w", 0))] : Store String) = some ("v", 5) ∧
    (TTLCache.get ([("k", ("v", 5)), ("z", ("w", 0))] : Store String) 5 "k").1 = some "v" ∧
    (TTLCache.get ([("k", ("v", 5)), ("z", ("w", 0))] : Store String) 100 "z").1 = some "w" := by
  decide

/-- **C2**.  `delete_prefix` returns exactly the number of entries whose
key starts with the prefix, removes exactly those, and leaves every other
entry's binding unchanged. -/
theorem deletePrefix_spec (α : Type u) (s : Store α) (p : String) :
    (TTLCache.deletePrefix s p).1 =
      (s.filter (fun kv => strStartsWith kv.1 p)).length ∧
    (∀ k, strStartsWith k p = true →
      List.lookup k (TTLCache.deletePrefix s p).2 = none) ∧
    (∀ k, strStartsWith k p = false →
      List.lookup k (TTLCache.deletePrefix s p).2 = List.lookup k s) := by
  refine ⟨?_, ?_, ?_⟩
  · show ((s.map (·.1)).filter (fun k => strStartsWith k p)).length = _
    induction s with
    | nil => rfl
    | cons a t ih =>
        by_cases h : strStartsWith a.1 p <;>
          simp [List.filter, h, ih]
  · intro k hk
    have h := lookup_filter_key (fun x => !strStartsWith x p) s k
    simpa [TTLCache.deletePrefix, hk] using h
  · intro k hk
    have h := lookup_filter_key (fun x => !strStartsWith x p) s k
    simpa [TTLCache.deletePrefix, hk] using h

/-! ## C9: the cache bus subscriber -/

/-- **C9** (amended).  On a topic ending in `"cache"` and an event whose
lowercased type is `"invalidate"`, the subscriber applies
`delete_prefix(pattern)` to its local cache exactly when the pattern is a
non-empty string; a missing or empty pattern leaves the cache untouched
(the handler is a total function of the event — the body is wrapped in
`try/except: pass`, so no event shape can raise into the bus loop). -/
theorem handleCacheEvent_spec (α : Type u) (topic : String) (ev : CacheEvent)
    (c : Store α)
    (htop : strEndsWith topic "cache" = true)
    (hty : pyLower (ev.etype.getD "") = "invalidate") :
    (∀ pat, ev.pattern = some pat → pat ≠ "" →
      handleCacheEvent topic ev c = (TTLCache.deletePrefix c pat).2) ∧
    ((ev.pattern = none ∨ ev.pattern = some "") →
      handleCacheEvent topic ev c = c) := by
  constructor
  · intro pat hpat hne
    simp [handleCacheEvent, htop, hty, hpat, hne]
  · rintro (hpat | hpat) <;> simp [handleCacheEvent, htop, hty, hpat]

/-- **C9**, witness: a concrete invalidate event with pattern
`"messages:"` applied to a one-entry cache. -/
theorem handleCacheEvent_spec_witness :
    handleCacheEvent "app.cache" ⟨some "invalidate", some "messages:"⟩
        ([("messages:latest:g:50", ("x", 3))] : Store String) =
      (TTLCache.deletePrefix
        ([("messages:latest:g:50", ("x", 3))] : Store String) "messages:").2 :=
  (handleCacheEvent_spec String "app.cache" ⟨some "invalidate", some "messages:"⟩
      [("messages:latest:g:50", ("x", 3))] (by decide) (by decide)).1
    "messages:" rfl (by decide)

/-- **C9**, counterexample to the claim as stated: an invalidate event
whose pattern is the empty string leaves the cache unchanged, although
`delete_prefix("")` would have removed every key (every key starts with
the empty prefix). -/
theorem handleCacheEvent_cex :
    handleCacheEvent "cache" ⟨some "invalidate", some ""⟩
        ([("k", ("v", 5))] : Store String) = [("k", ("v", 5))] ∧
    (TTLCache.deletePrefix ([("k", ("v", 5))] : Store String) "").2 = [] ∧
    ([("k", ("v", 5))] : Store String) ≠ [] := by
  decide

/-! ## C3: the window update never succeeds -/

/-- **C3** (code bug).  The update document of `_update_latest_messages`
targets the path `items` with both `$setOnInsert` and `$push`, which
MongoDB rejects (`ConflictingUpdateOperators`) before applying anything:
every append call on a found message raises, so no window document is
ever created or grown and the claimed bound (exactly `N` items after
`M > N` appends — the `pushSlice` semantics the update intends) is never
reached.  The window document is unchanged on every call. -/
theorem windowUpdateConflict (α : Type u) (msg : α) (winItems : Option (List α))
    (window : Nat) :
    hasDup ((latestWindowUpdateOps.map (·.2)).flatten) = true ∧
    (latestWindowUpdateOps.map (·.2)).flatten =
      ["groupId", "items", "items", "updatedAt"] ∧
    updateLatestMessages (some msg) winItems window =
      .error "ConflictingUpdateOperators" ∧
    updateLatestMessages (none : Option α) winItems window = .ok winItems :=
  ⟨rfl, rfl, rfl, rfl⟩

/-! ## C7: primary-store write failure short-circuits `create_group_message` -/

/-- **C7**.  When `insert_one` raises `e`, `create_group_message` fails
with exactly that error and the whole service state — primary store,
window document, local cache, redis cache, and the list of published bus
events (hence any downstream read-model update) — is exactly what it was
before the call: every cache-affecting step is sequenced after the
insert. -/
theorem createShortCircuit (κ : Type u) (ε : Type) (st : SvcState κ) (gid : String)
    (p : CreatePayload) (mid ts : String) (nowMs : Nat) (e : ε) :
    createGroupMessage st gid p mid ts nowMs (some e) = (.error e, st) ∧
    (createGroupMessage st gid p mid ts nowMs (some e)).2.localCache = st.localCache ∧
    (createGroupMessage st gid p mid ts nowMs (some e)).2.redisCache = st.redisCache ∧
    (createGroupMessage st gid p mid ts nowMs (some e)).2.published = st.published ∧
    (createGroupMessage st gid p mid ts nowMs (some e)).2.window = st.window ∧
    (createGroupMessage st gid p mid ts nowMs (some e)).2.store = st.store :=
  ⟨rfl, rfl, rfl, rfl, rfl, rfl⟩

/-! ## C8: consumer-loop fault isolation -/

/-- **C8**.  Both subscription loops process *every* received message:
each loop's trace is exactly the per-message decode-and-invoke map over
the stream — an undecodable payload is skipped with `continue` and a
handler that raises (`Except.error`) is recorded and swallowed, so neither
kind of fault prevents any later message from being decoded and handed to
the handler. -/
theorem consumerLoopResilient (μ π : Type u) (ε : Type) (decode : μ → Option π)
    (decodeRedis : μ → μ → Option (String × π))
    (handler : String → π → Except ε Unit)
    (kmsgs : List (BusMsg μ)) (rmsgs : List (RedisMsg μ)) :
    kafkaConsumeLoop decode handler kmsgs =
      kmsgs.filterMap (fun m =>
        (decode m.value).map (fun q => (m.topic, q, handler m.topic q))) ∧
    redisListenLoop decodeRedis handler rmsgs =
      rmsgs.filterMap (fun m =>
        if m.mtype = "message" then
          (decodeRedis m.channel m.data).map (fun cq => (cq.1, cq.2, handler cq.1 cq.2))
        else none) := by
  constructor
  · induction kmsgs with
    | nil => rfl
    | cons m rest ih =>
        cases hdec : decode m.value <;>
          simp [kafkaConsumeLoop, hdec, ih]
  · induction rmsgs with
    | nil => rfl
    | cons m rest ih =>
        by_cases hty : m.mtype = "message"
        · cases hdec : decodeRedis m.channel m.data with
          | none => simp [redisListenLoop, hty, hdec, ih]
          | some cq => simp [redisListenLoop, hty, hdec, ih]
        · simp [redisListenLoop, hty, ih]

/-! ## C5: resolving an already-resolved reply reference -/

theorem lookup_filter_replyKeys (ref : PyDict) (k : String)
    (hk : replyKeys.contains k = true) :
    List.lookup k (ref.filter (fun kv => replyKeys.contains kv.1)) =
      List.lookup k ref := by
  induction ref with
  | nil => rfl
  | cons a t ih =>
      obtain ⟨k', v⟩ := a
      have lcons : ∀ (x : String) (w : PyVal) (l : List (String × PyVal)), k ≠ x →
          List.lookup k ((x, w) :: l) = List.lookup k l := by
        intro x w l hx
        simp [List.lookup, beq_false_of_ne hx]
      rw [List.filter_cons]
      by_cases hq : replyKeys.contains k' = true
      · rw [if_pos hq]
        by_cases hkk : k = k'
        · subst hkk
          simp [List.lookup]
        · rw [lcons k' v _ hkk, lcons k' v t hkk, ih]
      · rw [if_neg hq, ih]
        have hkk : k ≠ k' := fun h => hq (h ▸ hk)
        rw [lcons k' v t hkk]

/-- **C5** (amended).  Resolving *any* reply reference whose `text` is a
string with non-whitespace content performs no primary-store lookup — the
result is identical for every store — and returns exactly the reference
projected onto the recognised snapshot key set `replyKeys`, each
recognised binding unchanged; in particular a reference holding only
recognised keys comes back exactly as it went in. -/
theorem resolveReply_idem (db db' : List PyDict) (sid : String) (ref : PyDict)
    (s : String) (hne : ref ≠ [])
    (htext : List.lookup "text" ref = some (.vStr s))
    (hstrip : pyStrip s ≠ "") :
    resolveReplyReference db sid ref =
      some (ref.filter (fun kv => replyKeys.contains kv.1)) ∧
    resolveReplyReference db sid ref = resolveReplyReference db' sid ref ∧
    (∀ k, replyKeys.contains k = true →
      List.lookup k (ref.filter (fun kv => replyKeys.contains kv.1)) =
        List.lookup k ref) ∧
    ((∀ kv ∈ ref, replyKeys.contains kv.1 = true) →
      resolveReplyReference db sid ref = some ref) := by
  have hlf : List.lookup "text" (ref.filter (fun kv => replyKeys.contains kv.1)) =
      some (.vStr s) :=
    (lookup_filter_replyKeys ref "text" (by decide)).trans htext
  have hneedF : needsTextOf (ref.filter (fun kv => replyKeys.contains kv.1)) =
      false := by
    unfold needsTextOf
    rw [hlf]
    simp [hstrip]
  have key : ∀ db0 : List PyDict, resolveReplyReference db0 sid ref =
      some (ref.filter (fun kv => replyKeys.contains kv.1)) := by
    intro db0
    unfold resolveReplyReference
    rw [if_neg hne]
    simp only [hneedF, Bool.false_and]
    have hlf2 : List.lookup "text"
        (List.filter (fun kv => decide (kv.1 ∈ replyKeys)) ref) =
          some (PyVal.vStr s) := by
      simpa using hlf
    simp [hlf2]
  refine ⟨key db, (key db).trans (key db').symm,
    fun k hk => lookup_filter_replyKeys ref k hk, fun hall => ?_⟩
  rw [key db, List.filter_eq_self.mpr hall]

/-- **C5**, witness: a reference carrying an unrecognised key and a
non-empty `text` resolves to its projection, identically against the
empty store and against a store holding a candidate original. -/
theorem resolveReply_idem_witness :
    resolveReplyReference [] "g"
        [("text", PyVal.vStr "hi"), ("userId", PyVal.vStr "u1")] =
      some [("text", PyVal.vStr "hi")] ∧
    resolveReplyReference [] "g"
        [("text", PyVal.vStr "hi"), ("userId", PyVal.vStr "u1")] =
      resolveReplyReference
        [[("roomId", PyVal.vStr "g"), ("messageId", PyVal.vStr "m1"),
          ("text", PyVal.vStr "other")]] "g"
        [("text", PyVal.vStr "hi"), ("userId", PyVal.vStr "u1")] ∧
    (∀ k, replyKeys.contains k = true →
      List.lookup k ([("text", PyVal.vStr "hi")] : PyDict) =
        List.lookup k
          ([("text", PyVal.vStr "hi"), ("userId", PyVal.vStr "u1")] : PyDict)) ∧
    ((∀ kv ∈ ([("text", PyVal.vStr "hi"), ("userId", PyVal.vStr "u1")] : PyDict),
        replyKeys.contains kv.1 = true) →
      resolveReplyReference [] "g"
          [("text", PyVal.vStr "hi"), ("userId", PyVal.vStr "u1")] =
        some [("text", PyVal.vStr "hi"), ("userId", PyVal.vStr "u1")]) :=
  resolveReply_idem []
    [[("roomId", PyVal.vStr "g"), ("messageId", PyVal.vStr "m1"),
      ("text", PyVal.vStr "other")]]
    "g" [("text", PyVal.vStr "hi"), ("userId", PyVal.vStr "u1")] "hi"
    (by decide) (by decide) (by decide)

/-- **C5**, counterexample to the claim as stated, in both directions it
fails.  (i) A reference with non-empty `text` but an unrecognised extra
key (`"userId"`) is not returned unchanged: the projection drops the key
even though no lookup happens.  (ii) A reference whose `text` is the
non-empty whitespace string `" "` *does* trigger a store lookup
(`needs_text` tests `strip() == ""`, not emptiness): against a store
holding the original, the result differs from the reference and from the
empty-store result. -/
theorem resolveReply_idem_cex :
    resolveReplyReference [] "g"
        [("text", PyVal.vStr "hi"), ("userId", PyVal.vStr "u1")] =
      some [("text", PyVal.vStr "hi")] ∧
    some [("text", PyVal.vStr "hi")] ≠
      some [("text", PyVal.vStr "hi"), ("userId", PyVal.vStr "u1")] ∧
    resolveReplyReference
        [[("roomId", PyVal.vStr "g"), ("messageId", PyVal.vStr "m1"),
          ("text", PyVal.vStr "orig")]] "g"
        [("messageId", PyVal.vStr "m1"), ("text", PyVal.vStr " ")] ≠
      some [("messageId", PyVal.vStr "m1"), ("text", PyVal.vStr " ")] ∧
    resolveReplyReference [] "g"
        [("messageId", PyVal.vStr "m1"), ("text", PyVal.vStr " ")] ≠
      resolveReplyReference
        [[("roomId", PyVal.vStr "g"), ("messageId", PyVal.vStr "m1"),
          ("text", PyVal.vStr "orig")]] "g"
        [("messageId", PyVal.vStr "m1"), ("text", PyVal.vStr " ")] := by
  decide

/-! ## C6: deterministic ETags and the 304 short-circuit -/

theorem canonPairs_eq_map (fs : List (String × JVal)) :
    canonPairs fs = fs.map (fun kv => (kv.1, canon kv.2)) := by
  induction fs with
  | nil => rfl
  | cons kv rest ih =>
      obtain ⟨k, v⟩ := kv
      simp [canonPairs, ih]

theorem sorted_key_perm_eq {l₁ l₂ : List (String × String)} (hp : l₁.Perm l₂)
    (hs₁ : l₁.Pairwise (fun a b => a.1 ≤ b.1))
    (hs₂ : l₂.Pairwise (fun a b => a.1 ≤ b.1))
    (hnd : (l₁.map Prod.fst).Nodup) : l₁ = l₂ := by
  induction l₁ generalizing l₂ with
  | nil =>
      have := hp.symm.eq_nil
      simp [this]
  | cons a t₁ ih =>
      cases l₂ with
      | nil => simpa using hp.eq_nil
      | cons b t₂ =>
          have hab : a ∈ b :: t₂ := hp.subset (List.mem_cons_self a t₁)
          have hba : b ∈ a :: t₁ := hp.symm.subset (List.mem_cons_self b t₂)
          have hle1 : a.1 ≤ b.1 := by
            rcases List.mem_cons.mp hba with h | h
            · rw [h]
            · exact (List.pairwise_cons.mp hs₁).1 b h
          have hle2 : b.1 ≤ a.1 := by
            rcases List.mem_cons.mp hab with h | h
            · rw [h]
            · exact (List.pairwise_cons.mp hs₂).1 a h
          have hkey : a.1 = b.1 := le_antisymm hle1 hle2
          have hnd2 : (a.1 :: t₁.map Prod.fst).Nodup := by
            simpa only [List.map_cons] using hnd
          have hb : b = a := by
            rcases List.mem_cons.mp hba with h | h
            · exact h
            · exfalso
              have hmem : a.1 ∈ t₁.map Prod.fst := by
                rw [hkey]
                exact List.mem_map_of_mem Prod.fst h
              exact (List.nodup_cons.mp hnd2).1 hmem
          subst hb
          have hp' := hp.cons_inv
          have ht := ih hp' (List.pairwise_cons.mp hs₁).2
            (List.pairwise_cons.mp hs₂).2 (List.nodup_cons.mp hnd2).2
          rw [ht]

theorem sortByKey_sorted (l : List (String × String)) :
    (sortByKey l).Pairwise (fun a b => a.1 ≤ b.1) := by
  have h := @List.sorted_mergeSort (String × String)
    (fun a b => a.1 ≤ b.1)
    (fun a b c hab hbc => by
      simp only [decide_eq_true_eq] at hab hbc ⊢
      exact le_trans hab hbc)
    (fun a b => by
      simp only [Bool.or_eq_true, decide_eq_true_eq]
      exact le_total a.1 b.1)
    l
  exact h.imp (fun hab => by simpa using hab)

theorem sortByKey_perm_eq {l₁ l₂ : List (String × String)} (hp : l₁.Perm l₂)
    (hnd : (l₁.map Prod.fst).Nodup) : sortByKey l₁ = sortByKey l₂ := by
  apply sorted_key_perm_eq
    ((List.mergeSort_perm l₁ _).trans (hp.trans (List.mergeSort_perm l₂ _).symm))
    (sortByKey_sorted l₁) (sortByKey_sorted l₂)
  have hpm : (sortByKey l₁).Perm l₁ := List.mergeSort_perm l₁ _
  have := (hpm.map Prod.fst).nodup_iff.mpr hnd
  exact this

theorem canon_jObj_perm (fs₁ fs₂ : List (String × JVal)) (hp : fs₁.Perm fs₂)
    (hnd : (fs₁.map Prod.fst).Nodup) :
    canon (.jObj fs₁) = canon (.jObj fs₂) := by
  show "\x7b" ++ _ ++ "\x7d" = "\x7b" ++ _ ++ "\x7d"
  have hkey : sortByKey (canonPairs fs₁) = sortByKey (canonPairs fs₂) := by
    rw [canonPairs_eq_map, canonPairs_eq_map]
    apply sortByKey_perm_eq (hp.map _)
    rw [List.map_map]
    have hcomp : (Prod.fst ∘ fun kv : String × JVal => (kv.1, canon kv.2)) =
        Prod.fst := funext fun kv => rfl
    rw [hcomp]
    exact hnd
  simp [canon, hkey]

theorem weakEtag_ne_empty (hashHex : String → String) (raw : String) :
    weakEtag hashHex raw ≠ "" := by
  intro hc
  unfold weakEtag at hc
  have hd := congrArg String.data hc
  rw [String.data_append, String.data_append] at hd
  rcases List.append_eq_nil.mp (List.append_eq_nil.mp hd).1 with ⟨h1, -⟩
  exact absurd h1 (by decide)

/-- **C6**.  The canonical serialization (compact separators, sorted keys)
gives the same string — hence the same weak ETag, for any digest
function — for two field orderings of the same payload object; and a
request presenting exactly the computed ETag as `If-None-Match` receives
status 304 with an empty body (and the ETag header) instead of the
payload. -/
theorem etagRoundTrip (hashHex : String → String) (fs₁ fs₂ : List (String × JVal))
    (hp : fs₁.Perm fs₂) (hnd : (fs₁.map Prod.fst).Nodup) (payload : JVal) :
    weakEtag hashHex (canon (.jObj fs₁)) = weakEtag hashHex (canon (.jObj fs₂)) ∧
    respondLatestCached hashHex payload
        (some (weakEtag hashHex (canon payload))) =
      (304, JVal.jArr [], weakEtag hashHex (canon payload)) := by
  constructor
  · rw [canon_jObj_perm fs₁ fs₂ hp hnd]
  · have htag := weakEtag_ne_empty hashHex (canon payload)
    simp [respondLatestCached, htag]

/-- **C6**, witness: the two insertion orders of a two-field object give
the same ETag, and replaying it as `If-None-Match` yields the 304. -/
theorem etagRoundTrip_witness :
    weakEtag (fun r => r)
        (canon (.jObj [("b", JVal.jStr "2"), ("a", JVal.jStr "1")])) =
      weakEtag (fun r => r)
        (canon (.jObj [("a", JVal.jStr "1"), ("b", JVal.jStr "2")])) ∧
    respondLatestCached (fun r => r) JVal.jNull
        (some (weakEtag (fun r => r) (canon JVal.jNull))) =
      (304, JVal.jArr [], weakEtag (fun r => r) (canon JVal.jNull)) :=
  etagRoundTrip (fun r => r)
    [("b", JVal.jStr "2"), ("a", JVal.jStr "1")]
    [("a", JVal.jStr "1"), ("b", JVal.jStr "2")]
    (List.Perm.swap ("b", JVal.jStr "2") ("a", JVal.jStr "1") []).symm
    (by decide) JVal.jNull

/-! ## C4: delete propagation to reply snapshots -/

theorem length_updateFirst {α : Type u} (p : α → Bool) (f : α → α) (l : List α) :
    (updateFirst p f l).length = l.length := by
  induction l with
  | nil => rfl
  | cons m t ih => by_cases h : p m <;> simp [updateFirst, h, ih]

theorem updateFirst_getElem_or {α : Type u} (p : α → Bool) (f : α → α) (l : List α)
    (i : Nat) (m : α) (h : l[i]? = some m) :
    (updateFirst p f l)[i]? = some m ∨ (updateFirst p f l)[i]? = some (f m) := by
  induction l generalizing i with
  | nil => simp at h
  | cons a t ih =>
      by_cases hp : p a
      · cases i with
        | zero =>
            simp only [List.getElem?_cons_zero, Option.some.injEq] at h
            subst h
            right
            simp [updateFirst, hp]
        | succ j =>
            left
            simp only [List.getElem?_cons_succ] at h
            simp [updateFirst, hp, h]
      · cases i with
        | zero =>
            simp only [List.getElem?_cons_zero, Option.some.injEq] at h
            subst h
            left
            simp [updateFirst, hp]
        | succ j =>
            simp only [List.getElem?_cons_succ] at h
            rcases ih j h with h' | h' <;> [left; right] <;>
              simpa [updateFirst, hp] using h'

theorem updateFirst_getElem_of_not {α : Type u} (p : α → Bool) (f : α → α)
    (l : List α) (i : Nat) (m : α) (h : l[i]? = some m) (hp : p m = false) :
    (updateFirst p f l)[i]? = some m := by
  induction l generalizing i with
  | nil => simp at h
  | cons a t ih =>
      by_cases hpa : p a
      · cases i with
        | zero =>
            simp only [List.getElem?_cons_zero, Option.some.injEq] at h
            subst h
            rw [hpa] at hp
            cases hp
        | succ j =>
            simp only [List.getElem?_cons_succ] at h
            simp [updateFirst, hpa, h]
      · cases i with
        | zero =>
            simp only [List.getElem?_cons_zero, Option.some.injEq] at h
            subst h
            simp [updateFirst, hpa]
        | succ j =>
            simp only [List.getElem?_cons_succ] at h
            simpa [updateFirst, hpa] using ih j h

theorem markDeleted_replyTo (now : String) (m : Msg) :
    (markDeleted now m).replyTo = m.replyTo := rfl

theorem markDeleted_messageId (now : String) (m : Msg) :
    (markDeleted now m).messageId = m.messageId := rfl

/-- **C4**.  Deleting message X propagates to every message Y whose
`replyTo` snapshot references X: in the primary store (for snapshots
carrying X's id) and in the thread's window document (also for snapshots
matching X only by timestamp + author username), Y's `replyTo.deleted`
becomes `true` and `replyTo.text` becomes the empty string, while Y's own
`text` is untouched whenever Y is not the deleted message itself. -/
theorem deletePropagation (store window : List Msg) (gid mid now : String)
    (doc : Msg) (hfind : findMessage store gid mid = some doc) :
    ∃ S W, deleteGroupMessage store window gid mid now = .ok (S, W) ∧
      S.length = store.length ∧ W.length = window.length ∧
      (∀ (i : Nat) (m : Msg) (r : ReplyRef), store[i]? = some m →
        m.replyTo = some r → r.messageId = some mid →
        ∃ m', S[i]? = some m' ∧
          (∃ r', m'.replyTo = some r' ∧ r'.deleted = true ∧ r'.text = some "") ∧
          (m.messageId ≠ mid → m'.text = m.text)) ∧
      (∀ (i : Nat) (m : Msg) (r : ReplyRef), window[i]? = some m →
        m.replyTo = some r → (r.messageId = some mid ∨
          (doc.timestamp ≠ "" ∧ doc.username ≠ "" ∧
            r.timestamp = some doc.timestamp ∧ r.username = some doc.username)) →
        ∃ m', W[i]? = some m' ∧
          (∃ r', m'.replyTo = some r' ∧ r'.deleted = true ∧ r'.text = some "") ∧
          (m.messageId ≠ mid → m'.text = m.text)) := by
  have hdel : deleteGroupMessage store window gid mid now =
      .ok (propagateReplyDeleteStore mid now
             (updateFirst (fun m => m.messageId == mid && scopeMatch gid m)
               (markDeleted now) store),
           propagateReplyDeleteWindow mid now doc.timestamp doc.username
             (markDeletedWindowItems mid now window)) := by
    unfold deleteGroupMessage
    rw [hfind]
  refine ⟨_, _, hdel, ?_, ?_, ?_, ?_⟩
  · simp [propagateReplyDeleteStore, length_updateFirst]
  · simp [propagateReplyDeleteWindow, markDeletedWindowItems]
  · intro i m r hm hrt hrid
    have hstep : ∃ m₁,
        (updateFirst (fun x => x.messageId == mid && scopeMatch gid x)
          (markDeleted now) store)[i]? = some m₁ ∧
        m₁.replyTo = m.replyTo ∧ (m.messageId ≠ mid → m₁.text = m.text) := by
      by_cases hid : m.messageId = mid
      · rcases updateFirst_getElem_or
            (fun x => x.messageId == mid && scopeMatch gid x)
            (markDeleted now) store i m hm with h' | h'
        · exact ⟨m, h', rfl, fun hc => absurd hid hc⟩
        · exact ⟨markDeleted now m, h', markDeleted_replyTo now m,
            fun hc => absurd hid hc⟩
      · have hpfalse : (m.messageId == mid && scopeMatch gid m) = false := by
          simp [hid]
        exact ⟨m, updateFirst_getElem_of_not _ _ store i m hm hpfalse,
          rfl, fun _ => rfl⟩
    obtain ⟨m₁, hm₁, hrt₁, htext₁⟩ := hstep
    have hrt₁' : m₁.replyTo = some r := hrt₁.trans hrt
    refine ⟨{ m₁ with replyTo := some (markReplyDeletedStore now r) }, ?_, ?_, ?_⟩
    · simp [propagateReplyDeleteStore, hm₁, hrt₁', hrid]
    · exact ⟨markReplyDeletedStore now r, rfl, rfl, rfl⟩
    · intro hne
      exact htext₁ hne
  · intro i m r hm hrt hmatch
    have hmatchb : replyMatchesDeleted mid doc.timestamp doc.username r = true := by
      rcases hmatch with h | ⟨hts, hus, hrts, hrus⟩
      · simp [replyMatchesDeleted, h]
      · simp [replyMatchesDeleted, hrts, hrus, bne_iff_ne, hts, hus]
    have hstep : ∃ m₁,
        (markDeletedWindowItems mid now window)[i]? = some m₁ ∧
        m₁.replyTo = m.replyTo ∧ (m.messageId ≠ mid → m₁.text = m.text) := by
      by_cases hid : m.messageId = mid
      · refine ⟨markDeleted now m, ?_, markDeleted_replyTo now m,
          fun hc => absurd hid hc⟩
        simp [markDeletedWindowItems, hm, hid]
      · refine ⟨m, ?_, rfl, fun _ => rfl⟩
        simp [markDeletedWindowItems, hm, hid]
    obtain ⟨m₁, hm₁, hrt₁, htext₁⟩ := hstep
    have hrt₁' : m₁.replyTo = some r := hrt₁.trans hrt
    refine ⟨{ m₁ with replyTo := some (markReplyDeletedWindow now r) }, ?_, ?_, ?_⟩
    · simp [propagateReplyDeleteWindow, hm₁, hrt₁', hmatchb]
    · exact ⟨markReplyDeletedWindow now r, rfl, rfl, rfl⟩
    · intro hne
      exact htext₁ hne

/-- **C4**, witness: deleting `"x"` in a thread where `"y"` replies to it
by id and window item `"z"` references it only by timestamp+author. -/
theorem deletePropagation_witness :
    ∃ S W,
      deleteGroupMessage
          [mkMsg "g" "x" "t1" "alice" "hello" none [],
           mkMsg "g" "y" "t2" "bob" "re"
             (some (mkReply (some "x") (some "alice") (some "hello") (some "t1"))) []]
          [mkMsg "g" "x" "t1" "alice" "hello" none [],
           mkMsg "g" "y" "t2" "bob" "re"
             (some (mkReply (some "x") (some "alice") (some "hello") (some "t1"))) [],
           mkMsg "g" "z" "t3" "carol" "re2"
             (some (mkReply none (some "alice") (some "h") (some "t1"))) []]
          "g" "x" "T" = .ok (S, W) ∧
      S.length = 2 ∧ W.length = 3 ∧
      (∀ (i : Nat) (m : Msg) (r : ReplyRef),
        [mkMsg "g" "x" "t1" "alice" "hello" none [],
         mkMsg "g" "y" "t2" "bob" "re"
           (some (mkReply (some "x") (some "alice") (some "hello") (some "t1"))) []][i]? =
            some m →
        m.replyTo = some r → r.messageId = some "x" →
        ∃ m', S[i]? = some m' ∧
          (∃ r', m'.replyTo = some r' ∧ r'.deleted = true ∧ r'.text = some "") ∧
          (m.messageId ≠ "x" → m'.text = m.text)) ∧
      (∀ (i : Nat) (m : Msg) (r : ReplyRef),
        [mkMsg "g" "x" "t1" "alice" "hello" none [],
         mkMsg "g" "y" "t2" "bob" "re"
           (some (mkReply (some "x") (some "alice") (some "hello") (some "t1"))) [],
         mkMsg "g" "z" "t3" "carol" "re2"
           (some (mkReply none (some "alice") (some "h") (some "t1"))) []][i]? =
            some m →
        m.replyTo = some r → (r.messageId = some "x" ∨
          ("t1" ≠ "" ∧ "alice" ≠ "" ∧
            r.timestamp = some "t1" ∧ r.username = some "alice")) →
        ∃ m', W[i]? = some m' ∧
          (∃ r', m'.replyTo = some r' ∧ r'.deleted = true ∧ r'.text = some "") ∧
          (m.messageId ≠ "x" → m'.text = m.text)) :=
  deletePropagation
    [mkMsg "g" "x" "t1" "alice" "hello" none [],
     mkMsg "g" "y" "t2" "bob" "re"
       (some (mkReply (some "x") (some "alice") (some "hello") (some "t1"))) []]
    [mkMsg "g" "x" "t1" "alice" "hello" none [],
     mkMsg "g" "y" "t2" "bob" "re"
       (some (mkReply (some "x") (some "alice") (some "hello") (some "t1"))) [],
     mkMsg "g" "z" "t3" "carol" "re2"
       (some (mkReply none (some "alice") (some "h") (some "t1"))) []]
    "g" "x" "T" (mkMsg "g" "x" "t1" "alice" "hello" none []) (by decide)

/-! ## C10: reaction toggling -/

/-- **C10**.  For a reaction request by user `u` on an existing message:
an empty/whitespace emoji, or one equal to `u`'s current emoji on that
message, removes `u`'s entry from the reactions map; any other emoji
writes `u`'s entry with the request's user id and username; and in every
case the entries of all other users are exactly preserved. -/
theorem reactionToggle (store : List Msg) (gid mid : String) (emoji : Option String)
    (uid uname : Option String) (nowMs : Nat) (doc : Msg) (u : String)
    (huid : uid = some u) (hu : u ≠ "")
    (hfind : findMessage store gid mid = some doc) :
    ∃ store' reacts,
      reactToGroupMessage store gid mid emoji uid uname nowMs = .ok (store', reacts) ∧
      ((emoji = none ∨ (∃ s, emoji = some s ∧ pyStrip s = "") ∨
          (List.lookup u doc.reactions).map (fun e => e.emoji) = emoji) →
        List.lookup u reacts = none) ∧
      (∀ s, emoji = some s → pyStrip s ≠ "" →
          (List.lookup u doc.reactions).map (fun e => e.emoji) ≠ emoji →
        List.lookup u reacts = some ⟨s, nowMs, u, uname⟩) ∧
      (∀ u', u' ≠ u → List.lookup u' reacts = List.lookup u' doc.reactions) := by
  subst huid
  have hstep : reactToGroupMessage store gid mid emoji (some u) uname nowMs =
      .ok (updateFirst (fun m => m.messageId == mid && scopeMatch gid m)
             (fun m => { m with
               reactions := reactUpdate doc.reactions u uname emoji nowMs }) store,
           reactUpdate doc.reactions u uname emoji nowMs) := by
    unfold reactToGroupMessage
    rw [Option.getD_some, if_neg hu, hfind]
  have hreq : ∀ emoji0 : Option String,
      reactUpdate doc.reactions u uname emoji0 nowMs =
        if ((match emoji0 with
            | none => true
            | some s => s == "" || pyStrip s == "") ||
            (List.lookup u doc.reactions).map (fun x => x.emoji) == emoji0) = true
        then eraseKey doc.reactions u
        else dictSet doc.reactions u ⟨emoji0.getD "", nowMs, u, uname⟩ :=
    fun _ => rfl
  refine ⟨_, _, hstep, ?_, ?_, ?_⟩
  · rintro (hnone | ⟨s, hs, hstrip⟩ | heq)
    · subst hnone
      rw [hreq]
      simp [lookup_eraseKey_self]
    · subst hs
      rw [hreq]
      simp [hstrip, lookup_eraseKey_self]
    · rw [hreq]
      simp [heq, lookup_eraseKey_self]
  · intro s hs hstrip hne
    subst hs
    have hsne : s ≠ "" := by
      intro h
      subst h
      exact hstrip rfl
    rw [hreq]
    have hcond : ((match some s with
        | none => true
        | some s => s == "" || pyStrip s == "") ||
        (List.lookup u doc.reactions).map (fun x => x.emoji) == some s) = false := by
      simp only [Bool.or_eq_false_iff]
      exact ⟨by simp [hsne, hstrip], by simpa using hne⟩
    rw [hcond, if_neg (by simp)]
    exact lookup_dictSet_self doc.reactions u ⟨s, nowMs, u, uname⟩
  · intro u' hne
    rw [hreq]
    split
    · exact lookup_eraseKey_ne doc.reactions u u' hne
    · exact lookup_dictSet_ne doc.reactions u u' _ hne

/-- **C10**, witness: user `"u1"` reacts `"up"` to a message that already
carries a reaction from `"u2"`. -/
theorem reactionToggle_witness :
    ∃ store' reacts,
      reactToGroupMessage
          [mkMsg "g" "m1" "t1" "alice" "hi" none
            [("u2", ⟨"smile", 5, "u2", some "bob"⟩)]]
          "g" "m1" (some "up") (some "u1") (some "ann") 7 = .ok (store', reacts) ∧
      ((some "up" = none ∨ (∃ s, some "up" = some s ∧ pyStrip s = "") ∨
          (List.lookup "u1"
            ([("u2", ⟨"smile", 5, "u2", some "bob"⟩)] : List (String × Reaction))).map
              (fun e => e.emoji) = some "up") →
        List.lookup "u1" reacts = none) ∧
      (∀ s, some "up" = some s → pyStrip s ≠ "" →
          (List.lookup "u1"
            ([("u2", ⟨"smile", 5, "u2", some "bob"⟩)] : List (String × Reaction))).map
              (fun e => e.emoji) ≠ some "up" →
        List.lookup "u1" reacts = some ⟨s, 7, "u1", some "ann"⟩) ∧
      (∀ u', u' ≠ "u1" →
        List.lookup u' reacts =
          List.lookup u'
            ([("u2", ⟨"smile", 5, "u2", some "bob"⟩)] : List (String × Reaction))) :=
  reactionToggle
    [mkMsg "g" "m1" "t1" "alice" "hi" none [("u2", ⟨"smile", 5, "u2", some "bob"⟩)]]
    "g" "m1" (some "up") (some "u1") (some "ann") 7
    (mkMsg "g" "m1" "t1" "alice" "hi" none [("u2", ⟨"smile", 5, "u2", some "bob"⟩)])
    "u1" rfl (by decide) (by decide)

end TrueMatch
